import Mathlib

/-!
# tapfs: attribution engine, session registry and trace RPC

A shallow embedding of `fs.go` and `io.go` of hanwen/tapfs.

* Go `map[string]struct{}` is a `Finset String`; the array `ops [opCount]map...`
  is a function from the four operation classes.
* Pointers to sessions are the registry key they are stored under: the registry
  `map[int]*openData` is a function `Int → Option openData`, and a call through
  a `*openData` writes the session back under that key.
* Everything that comes from the operating system or from go-fuse (the content
  of /proc/<pid>/stat, the forwarded loopback call, `os.Create`, the order in
  which `range` visits a map) is an argument of the definition that uses it.
* The mutexes are not modelled: every definition is one atomic transition.
-/

namespace tapfs

/-! ## fs.go: operations and sessions -/

/-- The operation classes `opRead = 0`, `opCreate = 1`, `opUpdate = 2`,
`opDelete = 3` of fs.go. -/
inductive operation where
  | opRead
  | opCreate
  | opUpdate
  | opDelete
  deriving DecidableEq, Repr, Fintype

open operation

/-- The session `openData` of fs.go: its id and one path set per operation. -/
structure openData where
  id : String
  ops : operation → Finset String

/-- Go `od.ops[op][path] = struct{}{}`. -/
def openData.mapInsert (od : openData) (op : operation) (path : String) : openData :=
  { od with ops := Function.update od.ops op (insert path (od.ops op)) }

/-- Go `delete(od.ops[op], path)`. -/
def openData.mapDelete (od : openData) (op : operation) (path : String) : openData :=
  { od with ops := Function.update od.ops op ((od.ops op).erase path) }

/-- The method `(od *openData) record(path, op)` of fs.go, lines 86-111. -/
def openData.record (od : openData) (path : String) (op : operation) : openData :=
  if path = "" then od
  else if op = opRead then
    if path ∈ od.ops opCreate then od
    else od.mapInsert op path
  else if op = opDelete then
    if path ∈ od.ops opCreate then od.mapDelete opCreate path
    else if path ∈ od.ops opUpdate then (od.mapDelete opUpdate path).mapInsert op path
    else od.mapInsert op path
  else if op = opUpdate then
    if path ∈ od.ops opCreate then od
    else od.mapInsert op path
  else od.mapInsert op path

/-- A sequence of `record` calls on one session, in order. -/
def openData.recordAll (od : openData) (events : List (String × operation)) : openData :=
  events.foldl (fun s e => s.record e.1 e.2) od

/-- The four path sets of a session are pairwise disjoint. -/
def openData.PairwiseDisjoint (od : openData) : Prop :=
  ∀ a b : operation, a ≠ b → Disjoint (od.ops a) (od.ops b)

/-- Whether `PairwiseDisjoint` holds can be computed. -/
instance openData.decidablePairwiseDisjoint (od : openData) : Decidable od.PairwiseDisjoint :=
  inferInstanceAs (Decidable (∀ a b : operation, a ≠ b → Disjoint (od.ops a) (od.ops b)))

/-- The event `(path, op)` arrives in a state where `record` keeps the sets
apart: every set that holds `path` is the set of `op` itself, or `Create`
(where `record` returns early or deletes the entry), or `Update` when `op` is
`opDelete` (where `record` deletes the entry before it adds to `Delete`). -/
def openData.Merges (od : openData) (path : String) (op : operation) : Prop :=
  ∀ X : operation, path ∈ od.ops X → op = X ∨ X = opCreate ∨ (X = opUpdate ∧ op = opDelete)

/-- Every event of the sequence arrives in a state that satisfies `Merges`. -/
def openData.Guarded : openData → List (String × operation) → Prop
  | _, [] => True
  | od, e :: es => od.Merges e.1 e.2 ∧ openData.Guarded (od.record e.1 e.2) es

/-- Whether `Merges` holds can be computed. -/
instance openData.decidableMerges (od : openData) (path : String) (op : operation) :
    Decidable (od.Merges path op) :=
  inferInstanceAs (Decidable (∀ X : operation, path ∈ od.ops X →
    op = X ∨ X = opCreate ∨ (X = opUpdate ∧ op = opDelete)))

/-- Whether `Guarded` holds can be computed. -/
instance openData.decidableGuarded : (od : openData) → (es : List (String × operation)) →
    Decidable (od.Guarded es)
  | _, [] => isTrue trivial
  | od, e :: es =>
    @instDecidableAnd _ _ (openData.decidableMerges od e.1 e.2)
      (openData.decidableGuarded (od.record e.1 e.2) es)

/-- Go `_, ok := od.ops[X][path]`. -/
def openData.has (od : openData) (X : operation) (path : String) : Bool :=
  decide (path ∈ od.ops X)

/-- The effect of `record(path, op)`, for a non-empty `path`, on the membership
of `path` in the set `X`, as a function of its membership in `Read`, `Create`,
`Update` and `Delete` before the call (`mem_record` proves that `record` does
this). -/
def recordMem (op X : operation) (R C U D : Bool) : Bool :=
  match op, X with
  | opRead, opRead => R || !C
  | opRead, opCreate => C
  | opRead, opUpdate => U
  | opRead, opDelete => D
  | opCreate, opRead => R
  | opCreate, opCreate => true
  | opCreate, opUpdate => U
  | opCreate, opDelete => D
  | opUpdate, opRead => R
  | opUpdate, opCreate => C
  | opUpdate, opUpdate => U || !C
  | opUpdate, opDelete => D
  | opDelete, opRead => R
  | opDelete, opCreate => false
  | opDelete, opUpdate => U && C
  | opDelete, opDelete => D || !C

/-! ## fs.go: the registry -/

/-- Go `int64` addition wraps around. -/
def wrapInt64 (n : Int) : Int := (n + 2 ^ 63) % 2 ^ 64 - 2 ^ 63

/-- The fields of `TapFSRoot` that the registry uses: `lastID int64`,
`openDataByPGID map[int]*openData`, and the backing directory. -/
structure TapFSRoot where
  Path : String
  lastID : Int
  openDataByPGID : Int → Option openData

/-- Writes a session back under its key (a store through the `*openData`). -/
def TapFSRoot.store (r : TapFSRoot) (key : Int) (od : openData) : TapFSRoot :=
  { r with openDataByPGID := Function.update r.openDataByPGID key (some od) }

/-- The method `registerPGID` of fs.go, lines 36-54. -/
def TapFSRoot.registerPGID (r : TapFSRoot) (pgid : Int) : TapFSRoot × openData :=
  match r.openDataByPGID pgid with
  | some od => (r, od)
  | none =>
    let ns := wrapInt64 (r.lastID + 1)
    let od : openData := { id := toString ns, ops := fun _ => ∅ }
    ({ r with lastID := ns, openDataByPGID := Function.update r.openDataByPGID pgid (some od) }, od)

/-! ### parentPID and the scan of /proc/<pid>/stat

`fmt.Fscanf(f, "%d (%s) %c %d", &pid, &name, &stat, &ppid)` is Go's standard
library; the definitions below follow fmt/scan.go for this format and these
operands, on the runes of the file. -/

/-- Go fmt `isSpace`: the white-space runes of its table. -/
def isSpace (r : Char) : Bool :=
  decide ((0x09 ≤ r.toNat ∧ r.toNat ≤ 0x0d) ∨ r.toNat = 0x20 ∨ r.toNat = 0x85 ∨
    r.toNat = 0xa0 ∨ r.toNat = 0x1680 ∨ (0x2000 ≤ r.toNat ∧ r.toNat ≤ 0x200a) ∨
    r.toNat = 0x2028 ∨ r.toNat = 0x2029 ∨ r.toNat = 0x202f ∨ r.toNat = 0x205f ∨
    r.toNat = 0x3000)

/-- The newline rune. -/
def newline : Char := Char.ofNat 10

/-- Go fmt `(*ss).SkipSpace` under Fscanf: skips white space, fails on a
newline (`none`); what is left is empty or starts with a rune that is no
space. -/
def SkipSpace : List Char → Option (List Char)
  | [] => some []
  | r :: rest =>
    if r = newline then none
    else if isSpace r then SkipSpace rest
    else some (r :: rest)

/-- Go fmt `(*ss).advance` on a single space of the format: the input must be at
its end or continue with a space that is no newline; the spaces up to the
next newline are consumed. -/
def advanceSpace : List Char → Option (List Char)
  | [] => some []
  | r :: rest =>
    if isSpace r = false ∨ r = newline then none
    else some ((r :: rest).dropWhile (fun c => isSpace c && decide (c ≠ newline)))

/-- Go fmt `(*ss).advance` on a literal rune of the format: the next rune of the
input must be that rune. -/
def advanceLiteral (fmtc : Char) : List Char → Option (List Char)
  | [] => none
  | r :: rest => if fmtc = r then some rest else none

/-- Go fmt `(*ss).scanInt` for `%d` into an `*int`: skip space, an optional sign,
at least one decimal digit, and the value must fit 64 bits. -/
def scanInt (input : List Char) : Option (Int × List Char) :=
  match SkipSpace input with
  | none => none
  | some [] => none
  | some (c :: cs) =>
    let body := if c = Char.ofNat 43 ∨ c = Char.ofNat 45 then cs else c :: cs
    let digits := body.takeWhile Char.isDigit
    let rest := body.dropWhile Char.isDigit
    if digits = [] then none
    else
      let v : Int := digits.foldl (fun a d => 10 * a + ((d.toNat : Int) - 48)) 0
      let i : Int := if c = Char.ofNat 45 then -v else v
      if -(2 ^ 63) ≤ i ∧ i < 2 ^ 63 then some (i, rest) else none

/-- Go fmt `(*ss).convertString` for `%s`: skip space, fail at the end of the
input, then take the runes up to the next white space. -/
def convertString (input : List Char) : Option (String × List Char) :=
  match SkipSpace input with
  | none => none
  | some [] => none
  | some (c :: cs) =>
    some (String.mk ((c :: cs).takeWhile (fun r => !isSpace r)),
      (c :: cs).dropWhile (fun r => !isSpace r))

/-- What `fmt.Fscanf` returns and stores: the number of items scanned, whether
`err != nil`, and the value of `ppid` (zero until the fourth item is stored). -/
structure ScanResult where
  n : Nat
  err : Bool
  ppid : Int
  deriving DecidableEq, Repr

/-- The call `fmt.Fscanf(f, "%d (%s) %c %d", &pid, &name, &stat, &ppid)` of fs.go,
line 65, on the runes of the file. The third item is `%c` with the operand
`&stat` of type `*string`; `%c` is no verb for a string, so fmt fails there
with "bad verb" when the input gets that far. -/
def Fscanf (input : List Char) : ScanResult :=
  match scanInt input with
  | none => { n := 0, err := true, ppid := 0 }
  | some (_, in1) =>
    match (advanceSpace in1).bind (advanceLiteral (Char.ofNat 40)) with
    | none => { n := 1, err := true, ppid := 0 }
    | some in2 =>
      match convertString in2 with
      | none => { n := 1, err := true, ppid := 0 }
      | some (_, in3) =>
        match (advanceLiteral (Char.ofNat 41) in3).bind advanceSpace with
        | none => { n := 2, err := true, ppid := 0 }
        | some _ => { n := 2, err := true, ppid := 0 }

/-- The function `parentPID` of fs.go, lines 56-70. `procStat pid` is the content
of /proc/pid/stat, `none` when `os.Open` fails. -/
def parentPID (procStat : Int → Option String) (pid : Int) : Int :=
  match procStat pid with
  | none => 1
  | some content =>
    let res := Fscanf content.toList
    if res.err = true ∨ res.n ≠ 4 then 1 else res.ppid

/-- The method `openData(pgid)` of fs.go, lines 72-84: the loop
`for { od := map[pgid]; if od != nil { return od }; pgid = parentPID(pgid) }`,
run for at most `fuel` iterations. The result is the registry after the call,
the key under which the session was found and the session; `none` when the
loop has not returned yet. -/
def TapFSRoot.openData (procStat : Int → Option String) (r : TapFSRoot) :
    Nat → Int → Option (TapFSRoot × Int × tapfs.openData)
  | 0, _ => none
  | fuel + 1, pgid =>
    match r.openDataByPGID pgid with
    | some od => some (r, pgid, od)
    | none => TapFSRoot.openData procStat r fuel (parentPID procStat pgid)

/-- The method `removeRecord` of fs.go, lines 121-127; the result is `none`
for Go's nil pointer. -/
def TapFSRoot.removeRecord (r : TapFSRoot) (pgid : Int) :
    TapFSRoot × Option tapfs.openData :=
  let od := r.openDataByPGID pgid
  ({ r with openDataByPGID := Function.update r.openDataByPGID pgid none }, od)

/-- The constructor `NewTapFS` of fs.go, lines 212-222. -/
def NewTapFS (origDir : String) : TapFSRoot :=
  (TapFSRoot.registerPGID { Path := origDir, lastID := 0, openDataByPGID := fun _ => none } 1).1

/-- A call on the registry. -/
inductive RegistryCall where
  | registerPGID (pgid : Int)
  | removeRecord (pgid : Int)
  | openData (pgid : Int)
  deriving DecidableEq, Repr

/-- The registry after one call. -/
def TapFSRoot.call (procStat : Int → Option String) (fuel : Nat) (r : TapFSRoot) : RegistryCall → TapFSRoot
  | .registerPGID pgid => (r.registerPGID pgid).1
  | .removeRecord pgid => (r.removeRecord pgid).1
  | .openData pgid =>
    match TapFSRoot.openData procStat r fuel pgid with
    | some (r1, _, _) => r1
    | none => r

/-- The registry after a sequence of calls, in order. -/
def TapFSRoot.calls (procStat : Int → Option String) (fuel : Nat) (r : TapFSRoot)
    (cs : List RegistryCall) : TapFSRoot :=
  cs.foldl (TapFSRoot.call procStat fuel) r

/-! ## fs.go: the node callbacks

The forwarded `LoopbackNode` call, `filepath.Join`, the caller's process
group (`context2pgid(ctx)`) and the content of /proc are arguments. A callback returns `none` when the
`openData` loop has not returned within `fuel` iterations. -/

/-- Go `syscall.O_WRONLY` on Linux. -/
def O_WRONLY : Nat := 0x1

/-- Go `syscall.O_RDWR` on Linux. -/
def O_RDWR : Nat := 0x2

/-- Go `syscall.O_TRUNC` on Linux. -/
def O_TRUNC : Nat := 0x200

/-- What `LoopbackNode.Open` returns: file handle, FUSE flags, errno. -/
structure OpenReply where
  fh : Option Nat
  flags : Nat
  errno : Nat
  deriving DecidableEq, Repr

/-- What `LoopbackNode.Create` returns: inode, file handle, FUSE flags, errno. -/
structure CreateReply where
  inode : Option Nat
  fh : Option Nat
  flags : Nat
  errno : Nat
  deriving DecidableEq, Repr

/-- The method `TapFSNode.Open` of fs.go, lines 168-177. `path` is `n.Path(nil)`.
The short declaration `fh, flags, errno := ...` assigns the returned FUSE flags
to the parameter `flags`, so the test on line 172 reads the returned flags. -/
def TapFSNode.Open (procStat : Int → Option String) (fuel : Nat) (LoopbackOpen : Nat → OpenReply)
    (r : TapFSRoot) (pgid : Int) (path : String) (flags : Nat) : Option (TapFSRoot × OpenReply) :=
  let reply := LoopbackOpen flags
  let flags := reply.flags
  let op := if flags &&& (O_TRUNC ||| O_RDWR ||| O_WRONLY) ≠ 0 then opUpdate else opRead
  match TapFSRoot.openData procStat r fuel pgid with
  | none => none
  | some (r1, key, od) => some (r1.store key (od.record path op), { reply with flags := flags })

/-- The method `TapFSNode.Create` of fs.go, lines 185-192. -/
def TapFSNode.Create (procStat : Int → Option String) (fuel : Nat)
    (LoopbackCreate : String → Nat → Nat → CreateReply) (Join : String → String → String)
    (r : TapFSRoot) (pgid : Int) (path name : String) (flags mode : Nat) :
    Option (TapFSRoot × CreateReply) :=
  let reply := LoopbackCreate name flags mode
  if reply.errno = 0 then
    match TapFSRoot.openData procStat r fuel pgid with
    | none => none
    | some (r1, key, od) => some (r1.store key (od.record (Join path name) opCreate), reply)
  else some (r, reply)

/-- The method `TapFSNode.Unlink` of fs.go, lines 194-200. -/
def TapFSNode.Unlink (procStat : Int → Option String) (fuel : Nat) (LoopbackUnlink : String → Nat)
    (Join : String → String → String) (r : TapFSRoot) (pgid : Int) (path name : String) :
    Option (TapFSRoot × Nat) :=
  let errno := LoopbackUnlink name
  if errno = 0 then
    match TapFSRoot.openData procStat r fuel pgid with
    | none => none
    | some (r1, key, od) => some (r1.store key (od.record (Join path name) opDelete), errno)
  else some (r, errno)

/-- The method `TapFSNode.Rename` of fs.go, lines 202-210. `newParentPath` is
`newParent.EmbeddedInode().Path(nil)`. -/
def TapFSNode.Rename (procStat : Int → Option String) (fuel : Nat)
    (LoopbackRename : String → String → String → Nat → Nat) (Join : String → String → String)
    (r : TapFSRoot) (pgid : Int) (path name newParentPath newName : String) (flags : Nat) :
    Option (TapFSRoot × Nat) :=
  let errno := LoopbackRename name newParentPath newName flags
  if errno = 0 then
    match TapFSRoot.openData procStat r fuel pgid with
    | none => none
    | some (r1, key, od) =>
      let od1 := od.record (Join path name) opDelete
      let od2 := od1.record (Join newParentPath newName) opCreate
      some (r1.store key od2, errno)
  else some (r, errno)

/-! ## io.go: the trace RPC -/

/-- The fields of `CommandServer`; `debugLog` is `none` for a nil
`io.WriteCloser` and `some f` for the open log file `f`. -/
structure CommandServer where
  root : TapFSRoot
  depDir : String
  Debug : Bool
  debugLog : Option Nat

/-- The request `TraceRequest`. -/
structure TraceRequest where
  PGID : Int
  deriving DecidableEq, Repr

/-- The reply `TraceResponse`; the defaults are Go's zero value. -/
structure TraceResponse where
  ID : String := ""
  DepDir : String := ""
  Read : List String := []
  Create : List String := []
  Update : List String := []
  Delete : List String := []
  deriving DecidableEq, Repr

/-- The array of the reply for an operation class. -/
def TraceResponse.ops (rep : TraceResponse) : operation → List String
  | opRead => rep.Read
  | opCreate => rep.Create
  | opUpdate => rep.Update
  | opDelete => rep.Delete

/-- How an RPC method ends: it returns (with the reply and Go's `error`,
`none` for nil), or the goroutine panics; in both cases with the server state
it leaves behind. -/
inductive RPCResult where
  | returned (s : CommandServer) (rep : TraceResponse) (err : Option String)
  | panicked (s : CommandServer)

/-- Go `sort.Strings`: the ascending rearrangement of the slice. Go compares
strings byte by byte, which on UTF-8 text is the order of the code points. -/
def sortStrings (l : List String) : List String :=
  l.insertionSort (· ≤ ·)

/-- The method `CommandServer.StartTrace` of io.go, lines 105-120. `osCreate dir
name` is the result of `os.Create(filepath.Join(dir, name))`. -/
def CommandServer.StartTrace (osCreate : String → String → Except String Nat)
    (s : CommandServer) (req : TraceRequest) (rep : TraceResponse) : RPCResult :=
  let (root1, od) := s.root.registerPGID req.PGID
  let s1 := { s with root := root1 }
  if s.Debug then
    match osCreate s.depDir (od.id ++ ".log") with
    | .error err => .returned s1 rep (some err)
    | .ok f => .returned { s1 with debugLog := some f } rep none
  else .returned s1 rep none

/-- The method `CommandServer.EndTrace` of io.go, lines 122-149. `range X` is
the order in which `for k := range od.ops[X]` visits the keys. `rep.ID = od.id`
dereferences `od`, and `s.debugLog.Close()` calls a method of `s.debugLog`:
both panic on nil. -/
def CommandServer.EndTrace (range : operation → List String)
    (s : CommandServer) (req : TraceRequest) (rep : TraceResponse) : RPCResult :=
  let (root1, od?) := s.root.removeRecord req.PGID
  let s1 := { s with root := root1 }
  match od? with
  | none => .panicked s1
  | some od =>
    let rep1 := { rep with ID := od.id, DepDir := s.depDir }
    let rep2 := { rep1 with Read := sortStrings (rep1.Read ++ range opRead) }
    let rep3 := { rep2 with Create := sortStrings (rep2.Create ++ range opCreate) }
    let rep4 := { rep3 with Update := sortStrings (rep3.Update ++ range opUpdate) }
    let rep5 := { rep4 with Delete := sortStrings (rep4.Delete ++ range opDelete) }
    if s.Debug then
      match s.debugLog with
      | none => .panicked s1
      | some _ => .returned { s1 with debugLog := none } rep5 none
    else .returned s1 rep5 none

/-- The list `keys` is a possible order of `for k := range m`: every key of
the map once. -/
def IsRange (keys : List String) (m : Finset String) : Prop :=
  keys.Nodup ∧ keys.toFinset = m

/-- Whether `IsRange` holds can be computed. -/
instance decidableIsRange (keys : List String) (m : Finset String) : Decidable (IsRange keys m) :=
  inferInstanceAs (Decidable (keys.Nodup ∧ keys.toFinset = m))

/-- The server state an RPC method leaves behind. -/
def RPCResult.state : RPCResult → CommandServer
  | .returned s _ _ => s
  | .panicked s => s

/-! ## Lemmas about `record` -/

theorem openData.eq_iff (a b : openData) : a = b ↔ a.id = b.id ∧ ∀ X q, q ∈ a.ops X ↔ q ∈ b.ops X := by
  constructor
  · rintro rfl; simp
  · rintro ⟨h1, h2⟩
    cases a; cases b
    simp only [openData.mk.injEq]
    refine ⟨h1, ?_⟩
    funext X
    exact Finset.ext (h2 X)

theorem mem_mapInsert (od : openData) (op X : operation) (p q : String) :
    q ∈ (od.mapInsert op p).ops X ↔ (X = op ∧ q = p) ∨ q ∈ od.ops X := by
  unfold openData.mapInsert
  by_cases h : X = op
  · subst h; simp
  · simp [Function.update_noteq h, h]

theorem mem_mapDelete (od : openData) (op X : operation) (p q : String) :
    q ∈ (od.mapDelete op p).ops X ↔ ¬ (X = op ∧ q = p) ∧ q ∈ od.ops X := by
  unfold openData.mapDelete
  by_cases h : X = op
  · subst h; simp
  · simp [Function.update_noteq h, h]

theorem id_record (od : openData) (p : String) (op : operation) : (od.record p op).id = od.id := by
  unfold openData.record
  split_ifs <;> rfl

theorem mem_record (od : openData) (p : String) (op X : operation) (q : String) :
    q ∈ (od.record p op).ops X ↔
      if q = p ∧ p ≠ "" then
        recordMem op X (od.has opRead p) (od.has opCreate p) (od.has opUpdate p)
          (od.has opDelete p) = true
      else q ∈ od.ops X := by
  by_cases hp : p = ""
  · simp [openData.record, hp]
  · by_cases hC : p ∈ od.ops opCreate <;> by_cases hU : p ∈ od.ops opUpdate <;> cases op <;>
      simp only [openData.record, hp, hC, hU, if_true, if_false, mem_mapInsert, mem_mapDelete,
        reduceCtorEq, ne_eq, not_false_eq_true, and_true, not_true_eq_false, and_false,
        false_and, true_and, false_or, or_false] <;>
      by_cases hq : q = p <;> cases X <;> simp [hq, hC, hU, recordMem, openData.has]

theorem pairwiseDisjoint_iff (od : openData) :
    od.PairwiseDisjoint ↔ ∀ a b : operation, a ≠ b → ∀ q, q ∈ od.ops a → q ∉ od.ops b := by
  unfold openData.PairwiseDisjoint
  constructor
  · intro h a b hab q hqa hqb
    exact (Finset.disjoint_left.mp (h a b hab)) hqa hqb
  · intro h a b hab
    exact Finset.disjoint_left.mpr (h a b hab)

theorem recordMem_disjoint : ∀ (op a b : operation) (R C U D : Bool), a ≠ b →
    (R = true → op = opRead) →
    (U = true → op = opUpdate ∨ op = opDelete) →
    (D = true → op = opDelete) →
    ¬ (R = true ∧ C = true) → ¬ (R = true ∧ U = true) → ¬ (R = true ∧ D = true) →
    ¬ (C = true ∧ U = true) → ¬ (C = true ∧ D = true) → ¬ (U = true ∧ D = true) →
    recordMem op a R C U D = true → recordMem op b R C U D = false := by
  decide

theorem recordMem_idem : ∀ (op X : operation) (R C U D : Bool),
    ¬ (op = opDelete ∧ C = true ∧ (U = true ∨ D = false)) →
    recordMem op X (recordMem op opRead R C U D) (recordMem op opCreate R C U D)
      (recordMem op opUpdate R C U D) (recordMem op opDelete R C U D) =
    recordMem op X R C U D := by
  decide

theorem recordMem_delete_twice : ∀ (R C U D : Bool), C = true → (U = true ∨ D = false) →
    (recordMem opDelete opUpdate (recordMem opDelete opRead R C U D)
        (recordMem opDelete opCreate R C U D) (recordMem opDelete opUpdate R C U D)
        (recordMem opDelete opDelete R C U D) ≠ recordMem opDelete opUpdate R C U D) ∨
    (recordMem opDelete opDelete (recordMem opDelete opRead R C U D)
        (recordMem opDelete opCreate R C U D) (recordMem opDelete opUpdate R C U D)
        (recordMem opDelete opDelete R C U D) ≠ recordMem opDelete opDelete R C U D) := by
  decide

theorem has_record_self (od : openData) (p : String) (hp : p ≠ "") (op X : operation) :
    (od.record p op).has X p =
      recordMem op X (od.has opRead p) (od.has opCreate p) (od.has opUpdate p)
        (od.has opDelete p) := by
  have h := mem_record od p op X p
  simp only [hp, ne_eq, not_false_eq_true, and_self, if_true] at h
  rw [Bool.eq_iff_iff, ← h]
  simp [openData.has]

theorem pairwiseDisjoint_record (od : openData) (p : String) (op : operation)
    (hd : od.PairwiseDisjoint) (hm : od.Merges p op) : (od.record p op).PairwiseDisjoint := by
  rw [pairwiseDisjoint_iff] at hd ⊢
  intro a b hab q
  simp only [mem_record]
  by_cases hq : q = p ∧ p ≠ ""
  · obtain ⟨rfl, hne⟩ := hq
    simp only [true_and, hne, ne_eq, not_false_eq_true, if_true]
    intro ha
    have key := recordMem_disjoint op a b (od.has opRead q) (od.has opCreate q)
      (od.has opUpdate q) (od.has opDelete q) hab
      (by intro h; have := hm opRead (by simpa [openData.has] using h); simpa using this)
      (by intro h; have := hm opUpdate (by simpa [openData.has] using h); simpa using this)
      (by intro h; have := hm opDelete (by simpa [openData.has] using h); simpa using this)
      (by simpa [openData.has] using hd opRead opCreate (by decide) q)
      (by simpa [openData.has] using hd opRead opUpdate (by decide) q)
      (by simpa [openData.has] using hd opRead opDelete (by decide) q)
      (by simpa [openData.has] using hd opCreate opUpdate (by decide) q)
      (by simpa [openData.has] using hd opCreate opDelete (by decide) q)
      (by simpa [openData.has] using hd opUpdate opDelete (by decide) q)
      ha
    simp [key]
  · simp only [hq, if_false]
    exact hd a b hab q

theorem record_empty (od : openData) (op : operation) : od.record "" op = od := by
  simp [openData.record]

theorem mem_record_ne (od : openData) (p q : String) (op X : operation) (h : q ≠ p) :
    q ∈ (od.record p op).ops X ↔ q ∈ od.ops X := by
  rw [mem_record]
  simp [h]

theorem mem_record_self (od : openData) (p : String) (hp : p ≠ "") (op X : operation) :
    p ∈ (od.record p op).ops X ↔
      recordMem op X (od.has opRead p) (od.has opCreate p) (od.has opUpdate p)
        (od.has opDelete p) = true := by
  rw [mem_record]
  simp [hp]

theorem has_record_ne (od : openData) (p q : String) (op X : operation) (h : q ≠ p) :
    (od.record p op).has X q = od.has X q := by
  rw [Bool.eq_iff_iff]
  simpa [openData.has] using mem_record_ne od p q op X h

theorem record_record_same (od : openData) (p : String) (op : operation)
    (h : ¬ (op = opDelete ∧ p ≠ "" ∧ p ∈ od.ops opCreate ∧
      (p ∈ od.ops opUpdate ∨ p ∉ od.ops opDelete))) :
    (od.record p op).record p op = od.record p op := by
  by_cases hp : p = ""
  · subst hp
    simp [record_empty]
  rw [openData.eq_iff]
  refine ⟨by simp [id_record], ?_⟩
  intro X q
  by_cases hq : q = p
  · subst hq
    rw [mem_record_self _ _ hp, mem_record_self _ _ hp]
    simp only [has_record_self od q hp]
    rw [recordMem_idem]
    rintro ⟨hop, hC, hUD⟩
    refine h ⟨hop, hp, by simpa [openData.has] using hC, ?_⟩
    rcases hUD with hU | hD
    · exact Or.inl (by simpa [openData.has] using hU)
    · exact Or.inr (by simpa [openData.has] using hD)
  · rw [mem_record_ne _ _ _ _ _ hq]

theorem record_delete_twice_ne (od : openData) (p : String) (hp : p ≠ "")
    (hC : p ∈ od.ops opCreate) (hUD : p ∈ od.ops opUpdate ∨ p ∉ od.ops opDelete) :
    (od.record p opDelete).record p opDelete ≠ od.record p opDelete := by
  intro heq
  have hmem : ∀ X, (p ∈ ((od.record p opDelete).record p opDelete).ops X ↔
      p ∈ (od.record p opDelete).ops X) := fun X => by rw [heq]
  have hU := hmem opUpdate
  have hD := hmem opDelete
  rw [mem_record_self _ _ hp, mem_record_self _ _ hp] at hU hD
  simp only [has_record_self od p hp] at hU hD
  have key := recordMem_delete_twice (od.has opRead p) (od.has opCreate p) (od.has opUpdate p)
    (od.has opDelete p) (by simpa [openData.has] using hC)
    (by rcases hUD with h | h
        · exact Or.inl (by simpa [openData.has] using h)
        · exact Or.inr (by simpa [openData.has] using h))
  rcases key with k | k
  · exact k (Bool.eq_iff_iff.mpr hU)
  · exact k (Bool.eq_iff_iff.mpr hD)

theorem record_record_comm (od : openData) (p q : String) (a b : operation) (hpq : p ≠ q) :
    (od.record p a).record q b = (od.record q b).record p a := by
  by_cases hp : p = ""
  · subst hp
    simp [record_empty]
  by_cases hq : q = ""
  · subst hq
    simp [record_empty]
  rw [openData.eq_iff]
  refine ⟨by simp [id_record], ?_⟩
  intro X r
  by_cases h1 : r = p
  · subst h1
    rw [mem_record_ne _ _ _ _ _ hpq, mem_record_self _ _ hp, mem_record_self _ _ hp]
    simp only [has_record_ne od q r b _ hpq]
  · by_cases h2 : r = q
    · subst h2
      rw [mem_record_ne _ _ _ _ _ h1, mem_record_self _ _ hq, mem_record_self _ _ hq]
      simp only [has_record_ne od p r a _ h1]
    · rw [mem_record_ne _ _ _ _ _ h2, mem_record_ne _ _ _ _ _ h1, mem_record_ne _ _ _ _ _ h1,
        mem_record_ne _ _ _ _ _ h2]

theorem record_of_mem_create (od : openData) (p : String) (op : operation)
    (hC : p ∈ od.ops opCreate) (hop : op = opRead ∨ op = opUpdate) : od.record p op = od := by
  rcases hop with rfl | rfl <;> simp [openData.record, hC]

theorem foldl_record_of_mem_create (p : String) (ops : List operation)
    (hops : ∀ o ∈ ops, o = opRead ∨ o = opUpdate) (od : openData) (hC : p ∈ od.ops opCreate) :
    ops.foldl (fun s o => s.record p o) od = od := by
  induction ops with
  | nil => rfl
  | cons o os ih =>
    simp only [List.foldl_cons]
    rw [record_of_mem_create od p o hC (hops o (List.mem_cons_self _ _))]
    exact ih (fun x hx => hops x (List.mem_cons_of_mem _ hx))

theorem recordMem_create_delete : ∀ (X : operation),
    recordMem opDelete X
      (recordMem opCreate opRead false false false false)
      (recordMem opCreate opCreate false false false false)
      (recordMem opCreate opUpdate false false false false)
      (recordMem opCreate opDelete false false false false) = false := by
  decide

theorem pairwiseDisjoint_of_empty (od : openData) (h : ∀ X, od.ops X = ∅) :
    od.PairwiseDisjoint := by
  intro a b _
  rw [h a]
  exact Finset.disjoint_empty_left _

theorem pairwiseDisjoint_recordAll (events : List (String × operation)) :
    ∀ od : openData, od.PairwiseDisjoint → od.Guarded events →
      (od.recordAll events).PairwiseDisjoint := by
  induction events with
  | nil => intro od hd _; exact hd
  | cons e es ih =>
    intro od hd hg
    exact ih (od.record e.1 e.2) (pairwiseDisjoint_record od e.1 e.2 hd hg.1) hg.2

/-! ## Claims about `record` -/

/-- C1 (counterexample): on a freshly registered session, the events Read, Delete,
Update, Create on the path "a" leave "a" in all four sets, so no two of the
sets are disjoint. -/
theorem C1_counterexample :
    (∀ X, (TapFSRoot.registerPGID (NewTapFS "/backing") 2).2.ops X = ∅) ∧
    (∀ X, "a" ∈ ((TapFSRoot.registerPGID (NewTapFS "/backing") 2).2.recordAll
        [("a", opRead), ("a", opDelete), ("a", opUpdate), ("a", opCreate)]).ops X) ∧
    ¬ ((TapFSRoot.registerPGID (NewTapFS "/backing") 2).2.recordAll
        [("a", opRead), ("a", opDelete), ("a", opUpdate), ("a", opCreate)]).PairwiseDisjoint := by
  have hmem : ∀ X, "a" ∈ ((TapFSRoot.registerPGID (NewTapFS "/backing") 2).2.recordAll
        [("a", opRead), ("a", opDelete), ("a", opUpdate), ("a", opCreate)]).ops X := by decide
  refine ⟨by decide, hmem, ?_⟩
  intro h
  exact (Finset.disjoint_left.mp (h opRead opCreate (by decide))) (hmem opRead) (hmem opCreate)

/-- C1 (amended): starting from a session whose four sets are empty, after every
finite sequence of record calls in which each event (path, op) arrives while
the path is in no set other than the set of op, Create, or (when op is Delete)
Update, the four sets are pairwise disjoint. -/
theorem C1_guarded_pairwise_disjoint (od : openData) (events : List (String × operation))
    (hfresh : ∀ X, od.ops X = ∅) (hguard : od.Guarded events) :
    (od.recordAll events).PairwiseDisjoint :=
  pairwiseDisjoint_recordAll events od (pairwiseDisjoint_of_empty od hfresh) hguard

/-- C1 (witness): a freshly registered session and a run that creates, reads
and deletes "a" and updates and deletes "b". -/
theorem C1_guarded_pairwise_disjoint_witness :
    (∀ X, (TapFSRoot.registerPGID (NewTapFS "/backing") 2).2.ops X = ∅) ∧
    (TapFSRoot.registerPGID (NewTapFS "/backing") 2).2.Guarded
      [("a", opCreate), ("a", opRead), ("a", opDelete), ("b", opUpdate), ("b", opDelete)] ∧
    ((TapFSRoot.registerPGID (NewTapFS "/backing") 2).2.recordAll
      [("a", opCreate), ("a", opRead), ("a", opDelete), ("b", opUpdate),
        ("b", opDelete)]).PairwiseDisjoint :=
  ⟨by decide, by decide,
    C1_guarded_pairwise_disjoint _ _ (by decide) (by decide)⟩

/-- C2 (counterexample): in a session where "a" is in Create, one Delete("a")
leaves "a" out of Delete and a second Delete("a") puts it there. -/
theorem C2_counterexample :
    "a" ∈ ((TapFSRoot.registerPGID (NewTapFS "/backing") 2).2.record "a" opCreate).ops opCreate ∧
    ((((TapFSRoot.registerPGID (NewTapFS "/backing") 2).2.record "a" opCreate).record
        "a" opDelete).record "a" opDelete).ops opDelete ≠
      (((TapFSRoot.registerPGID (NewTapFS "/backing") 2).2.record "a" opCreate).record
        "a" opDelete).ops opDelete := by
  decide

/-- C2 (amended): for every session, path p and op, recording (p, op) twice in
a row gives the same session as recording it once, except exactly in one
case, where the two differ: op is Delete and p is a non-empty path that is in
Create and either in Update or not in Delete. -/
theorem C2_record_idempotent (od : openData) (p : String) (op : operation) :
    (od.record p op).record p op = od.record p op ↔
      ¬ (op = opDelete ∧ p ≠ "" ∧ p ∈ od.ops opCreate ∧
        (p ∈ od.ops opUpdate ∨ p ∉ od.ops opDelete)) := by
  constructor
  · rintro heq ⟨rfl, hp, hC, hUD⟩
    exact record_delete_twice_ne od p hp hC hUD heq
  · exact record_record_same od p op

/-- C2 (witness): Delete of "a", twice, on a session where "a" is in Create and
in Delete and not in Update (after Delete then Create of "a"). -/
theorem C2_record_idempotent_witness :
    "a" ∈ (((TapFSRoot.registerPGID (NewTapFS "/backing") 2).2.record "a" opDelete).record
      "a" opCreate).ops opCreate ∧
    (((((TapFSRoot.registerPGID (NewTapFS "/backing") 2).2.record "a" opDelete).record
        "a" opCreate).record "a" opDelete).record "a" opDelete) =
      ((((TapFSRoot.registerPGID (NewTapFS "/backing") 2).2.record "a" opDelete).record
        "a" opCreate).record "a" opDelete) :=
  ⟨by decide, (C2_record_idempotent _ "a" opDelete).mpr (by decide)⟩

/-- C3: for every path p and every session in which p is in none of the four
sets, recording Create(p), then any finite sequence of Read(p) and Update(p)
events, then Delete(p), gives a session in which p is in none of the four sets
(for the empty path too, which record ignores). -/
theorem C3_create_then_delete_cancels (od : openData) (p : String) (ops : List operation)
    (hnone : ∀ X, p ∉ od.ops X) (hops : ∀ o ∈ ops, o = opRead ∨ o = opUpdate) :
    ∀ X, p ∉ ((ops.foldl (fun s o => s.record p o) (od.record p opCreate)).record
      p opDelete).ops X := by
  intro X
  by_cases hp : p = ""
  · subst hp
    have h0 : ∀ l : List operation, l.foldl (fun s o => s.record "" o) od = od := by
      intro l
      induction l with
      | nil => rfl
      | cons o os ih => rw [List.foldl_cons, record_empty]; exact ih
    rw [record_empty, record_empty, h0]
    exact hnone X
  · have hC : p ∈ (od.record p opCreate).ops opCreate := by
      rw [mem_record_self _ _ hp]; rfl
    rw [foldl_record_of_mem_create p ops hops _ hC, mem_record_self _ _ hp]
    simp only [has_record_self od p hp]
    have hh : ∀ Y, od.has Y p = false := fun Y => by simpa [openData.has] using hnone Y
    rw [hh, hh, hh, hh, recordMem_create_delete]
    simp

/-- C3 (witness): Create, Read, Update, Update, Read, Delete of "a" on a fresh
session. -/
theorem C3_create_then_delete_cancels_witness :
    (∀ X, "a" ∉ (TapFSRoot.registerPGID (NewTapFS "/backing") 2).2.ops X) ∧
    (∀ o ∈ [opRead, opUpdate, opUpdate, opRead], o = opRead ∨ o = opUpdate) ∧
    ∀ X, "a" ∉ (([opRead, opUpdate, opUpdate, opRead].foldl (fun s o => s.record "a" o)
      ((TapFSRoot.registerPGID (NewTapFS "/backing") 2).2.record "a" opCreate)).record
      "a" opDelete).ops X :=
  ⟨by decide, by decide,
    C3_create_then_delete_cancels _ "a" [opRead, opUpdate, opUpdate, opRead]
      (by decide) (by decide)⟩

/-- C10: for every session, every two distinct paths p and q and every two ops
a and b, recording (p, a) then (q, b) gives the same session as recording
(q, b) then (p, a); and record(p, a) changes the membership of no path other
than p in any set. -/
theorem C10_record_commutes (od : openData) (p q : String) (a b : operation) (hpq : p ≠ q) :
    (od.record p a).record q b = (od.record q b).record p a ∧
    ∀ (X : operation) (r : String), r ≠ p → (r ∈ (od.record p a).ops X ↔ r ∈ od.ops X) :=
  ⟨record_record_comm od p q a b hpq, fun X r hr => mem_record_ne od p r a X hr⟩

/-- C10 (witness): Delete of "a" and Create of "b" on a session that created "a". -/
theorem C10_record_commutes_witness :
    ("a" : String) ≠ "b" ∧
    ((((TapFSRoot.registerPGID (NewTapFS "/backing") 2).2.record "a" opCreate).record
        "a" opDelete).record "b" opCreate =
      (((TapFSRoot.registerPGID (NewTapFS "/backing") 2).2.record "a" opCreate).record
        "b" opCreate).record "a" opDelete) :=
  ⟨by decide, (C10_record_commutes _ "a" "b" opDelete opCreate (by decide)).1⟩

/-! ## Lemmas about the registry -/

theorem openData_root (procStat : Int → Option String) (r : TapFSRoot) :
    ∀ (fuel : Nat) (pgid : Int) (res : TapFSRoot × Int × openData),
      TapFSRoot.openData procStat r fuel pgid = some res → res.1 = r := by
  intro fuel
  induction fuel with
  | zero => intro pgid res h; simp [TapFSRoot.openData] at h
  | succ n ih =>
    intro pgid res h
    unfold TapFSRoot.openData at h
    cases hreg : r.openDataByPGID pgid with
    | none => rw [hreg] at h; exact ih _ _ h
    | some od =>
      rw [hreg] at h
      simp only [Option.some.injEq] at h
      rw [← h]

theorem convertString_rest (input : List Char) (name : String) (rest : List Char)
    (h : convertString input = some (name, rest)) :
    rest = [] ∨ ∃ c cs, rest = c :: cs ∧ isSpace c = true := by
  unfold convertString at h
  split at h
  · exact absurd h (by simp)
  · exact absurd h (by simp)
  · rename_i c cs _
    simp only [Option.some.injEq, Prod.mk.injEq] at h
    rw [← h.2]
    cases hd : List.dropWhile (fun r => !isSpace r) (c :: cs) with
    | nil => exact Or.inl rfl
    | cons x xs =>
      refine Or.inr ⟨x, xs, rfl, ?_⟩
      have hx := List.head_dropWhile_not (fun r => !isSpace r) (c :: cs) (by rw [hd]; simp)
      simpa [hd] using hx

theorem convertString_then_paren (input : List Char) (name : String) (rest : List Char)
    (h : convertString input = some (name, rest)) :
    advanceLiteral (Char.ofNat 41) rest = none := by
  rcases convertString_rest input name rest h with rfl | ⟨c, cs, rfl, hc⟩
  · rfl
  · have hne : Char.ofNat 41 ≠ c := by
      rintro rfl
      revert hc
      decide
    simp [advanceLiteral, hne]

theorem Fscanf_err (input : List Char) : (Fscanf input).err = true := by
  unfold Fscanf
  repeat' split
  all_goals rfl

theorem parentPID_eq_one (procStat : Int → Option String) (pid : Int) :
    parentPID procStat pid = 1 := by
  unfold parentPID
  cases procStat pid with
  | none => rfl
  | some content => simp [Fscanf_err]

theorem openData_registered (procStat : Int → Option String) (r : TapFSRoot) (pgid : Int)
    (od : openData) (h : r.openDataByPGID pgid = some od) (fuel : Nat) (hf : 0 < fuel) :
    TapFSRoot.openData procStat r fuel pgid = some (r, pgid, od) := by
  obtain ⟨m, rfl⟩ : ∃ m, fuel = m + 1 := ⟨fuel - 1, by omega⟩
  simp [TapFSRoot.openData, h]

theorem openData_unregistered (procStat : Int → Option String) (r : TapFSRoot) (pgid : Int)
    (od1 : openData) (h : r.openDataByPGID pgid = none) (h1 : r.openDataByPGID 1 = some od1)
    (fuel : Nat) (hf : 1 < fuel) :
    TapFSRoot.openData procStat r fuel pgid = some (r, 1, od1) := by
  obtain ⟨m, rfl⟩ : ∃ m, fuel = m + 1 := ⟨fuel - 1, by omega⟩
  simp only [TapFSRoot.openData, h, parentPID_eq_one]
  exact openData_registered procStat r 1 od1 h1 m (by omega)

theorem registerPGID_keeps (r : TapFSRoot) (pgid key : Int)
    (h : r.openDataByPGID key ≠ none) : (r.registerPGID pgid).1.openDataByPGID key ≠ none := by
  unfold TapFSRoot.registerPGID
  cases hreg : r.openDataByPGID pgid with
  | some od => simpa using h
  | none =>
    have hne : key ≠ pgid := by
      rintro rfl
      exact h hreg
    simpa [Function.update_noteq hne] using h

theorem removeRecord_keeps (r : TapFSRoot) (pgid key : Int) (hne : pgid ≠ key)
    (h : r.openDataByPGID key ≠ none) : (r.removeRecord pgid).1.openDataByPGID key ≠ none := by
  simpa [TapFSRoot.removeRecord, Function.update_noteq (Ne.symm hne)] using h

theorem call_openData (procStat : Int → Option String) (fuel : Nat) (r : TapFSRoot) (pgid : Int) :
    TapFSRoot.call procStat fuel r (.openData pgid) = r := by
  simp only [TapFSRoot.call]
  cases h : TapFSRoot.openData procStat r fuel pgid with
  | none => rfl
  | some res =>
    obtain ⟨r1, k, od⟩ := res
    exact openData_root procStat r fuel pgid _ h

theorem NewTapFS_bootstrap (origDir : String) : (NewTapFS origDir).openDataByPGID 1 ≠ none := by
  simp [NewTapFS, TapFSRoot.registerPGID]

theorem calls_keep_bootstrap (procStat : Int → Option String) (fuel : Nat) (cs : List RegistryCall) :
    ∀ r : TapFSRoot, (∀ c ∈ cs, c ≠ RegistryCall.removeRecord 1) →
      r.openDataByPGID 1 ≠ none →
      (TapFSRoot.calls procStat fuel r cs).openDataByPGID 1 ≠ none := by
  induction cs with
  | nil => intro r _ h; exact h
  | cons c cs ih =>
    intro r hc h
    have hc0 := hc c (List.mem_cons_self _ _)
    refine ih _ (fun x hx => hc x (List.mem_cons_of_mem _ hx)) ?_
    cases c with
    | registerPGID pgid => exact registerPGID_keeps r pgid 1 h
    | removeRecord pgid =>
      have hne : pgid ≠ 1 := by
        rintro rfl
        exact hc0 rfl
      exact removeRecord_keeps r pgid 1 hne h
    | openData pgid => rw [call_openData]; exact h

/-! ## Claims about the registry -/

/-- C7 (failing input): PGIDs 1 and 5701 are registered, 5702 is not, and
/proc/5702/stat names 5701 as the parent of 5702. The scan of that file fails
(`%s` reads "sh)" up to the space, so the `)` of the format meets a space),
parentPID returns 1, and the lookup of 5702 returns the session of PID 1 and
not the session of the parent 5701. -/
theorem C7_lookup_skips_registered_parent :
    ∃ (od1 od2 : openData),
      ((NewTapFS "/backing").registerPGID 5701).1.openDataByPGID 1 = some od1 ∧
      ((NewTapFS "/backing").registerPGID 5701).1.openDataByPGID 5701 = some od2 ∧
      ((NewTapFS "/backing").registerPGID 5701).1.openDataByPGID 5702 = none ∧
      od1.id = "1" ∧ od2.id = "2" ∧
      Fscanf "5702 (sh) S 5701 5702 5701 0 -1 4194304".toList =
        { n := 2, err := true, ppid := 0 } ∧
      parentPID (fun pid => if pid = 5702 then some "5702 (sh) S 5701 5702 5701 0 -1 4194304"
        else none) 5702 = 1 ∧
      TapFSRoot.openData
        (fun pid => if pid = 5702 then some "5702 (sh) S 5701 5702 5701 0 -1 4194304" else none)
        ((NewTapFS "/backing").registerPGID 5701).1 4 5702 =
        some (((NewTapFS "/backing").registerPGID 5701).1, 1, od1) := by
  refine ⟨_, _, rfl, rfl, rfl, by decide, by decide, by decide, parentPID_eq_one _ _, ?_⟩
  exact openData_unregistered _ _ 5702 _ rfl rfl 4 (by decide)

/-- C9 (counterexample): removeRecord(1) right after NewTapFS leaves no entry for
PGID 1. -/
theorem C9_counterexample :
    (TapFSRoot.calls (fun _ => none) 8 (NewTapFS "/backing")
      [RegistryCall.removeRecord 1]).openDataByPGID 1 = none := by
  simp [TapFSRoot.calls, TapFSRoot.call, TapFSRoot.removeRecord]

/-- C9 (amended): in every registry state reached from NewTapFS by a sequence of
registerPGID (any PGID), removeRecord with a PGID other than 1, and openData
lookups, an entry for PGID 1 is present. -/
theorem C9_bootstrap_kept (procStat : Int → Option String) (fuel : Nat) (origDir : String)
    (cs : List RegistryCall) (hcs : ∀ c ∈ cs, c ≠ RegistryCall.removeRecord 1) :
    (TapFSRoot.calls procStat fuel (NewTapFS origDir) cs).openDataByPGID 1 ≠ none :=
  calls_keep_bootstrap procStat fuel cs _ hcs (NewTapFS_bootstrap origDir)

/-- C9 (witness): register 5, look up 9, close 5, register 1 again. -/
theorem C9_bootstrap_kept_witness :
    (∀ c ∈ [RegistryCall.registerPGID 5, RegistryCall.openData 9, RegistryCall.removeRecord 5,
        RegistryCall.registerPGID 1], c ≠ RegistryCall.removeRecord 1) ∧
    (TapFSRoot.calls (fun _ => none) 8 (NewTapFS "/backing")
      [RegistryCall.registerPGID 5, RegistryCall.openData 9, RegistryCall.removeRecord 5,
        RegistryCall.registerPGID 1]).openDataByPGID 1 ≠ none :=
  ⟨by decide, C9_bootstrap_kept (fun _ => none) 8 "/backing" _ (by decide)⟩

/-! ## Lemmas about the node callbacks -/

theorem Create_errno (procStat : Int → Option String) (fuel : Nat)
    (LoopbackCreate : String → Nat → Nat → CreateReply) (Join : String → String → String)
    (r : TapFSRoot) (pgid : Int) (path name : String) (flags mode : Nat)
    (h : (LoopbackCreate name flags mode).errno ≠ 0) :
    TapFSNode.Create procStat fuel LoopbackCreate Join r pgid path name flags mode =
      some (r, LoopbackCreate name flags mode) := by
  simp [TapFSNode.Create, h]

theorem Unlink_errno (procStat : Int → Option String) (fuel : Nat) (LoopbackUnlink : String → Nat)
    (Join : String → String → String) (r : TapFSRoot) (pgid : Int) (path name : String)
    (h : LoopbackUnlink name ≠ 0) :
    TapFSNode.Unlink procStat fuel LoopbackUnlink Join r pgid path name =
      some (r, LoopbackUnlink name) := by
  simp [TapFSNode.Unlink, h]

theorem Rename_errno (procStat : Int → Option String) (fuel : Nat)
    (LoopbackRename : String → String → String → Nat → Nat) (Join : String → String → String)
    (r : TapFSRoot) (pgid : Int) (path name newParentPath newName : String) (flags : Nat)
    (h : LoopbackRename name newParentPath newName flags ≠ 0) :
    TapFSNode.Rename procStat fuel LoopbackRename Join r pgid path name newParentPath newName
      flags = some (r, LoopbackRename name newParentPath newName flags) := by
  simp [TapFSNode.Rename, h]

theorem Open_request_flags (procStat : Int → Option String) (fuel : Nat) (reply : OpenReply)
    (r : TapFSRoot) (pgid : Int) (path : String) (flags1 flags2 : Nat) :
    TapFSNode.Open procStat fuel (fun _ => reply) r pgid path flags1 =
      TapFSNode.Open procStat fuel (fun _ => reply) r pgid path flags2 := by
  rfl

/-! ## Claims about the node callbacks -/

/-- C4 (failing input): an open of "a" with request flags O_WRONLY|O_TRUNC, whose
forwarded loopback open succeeds and returns FUSE flags 0, records Read("a")
and not Update("a"): the test reads the returned flags. -/
theorem C4_open_write_records_read :
    (O_WRONLY ||| O_TRUNC) &&& (O_TRUNC ||| O_RDWR ||| O_WRONLY) ≠ 0 ∧
    ∃ (r1 : TapFSRoot) (reply : OpenReply) (od : openData),
      TapFSNode.Open (fun _ => none) 4 (fun _ => { fh := some 3, flags := 0, errno := 0 })
        (NewTapFS "/backing") 1 "a" (O_WRONLY ||| O_TRUNC) = some (r1, reply) ∧
      reply.errno = 0 ∧
      r1.openDataByPGID 1 = some od ∧
      "a" ∈ od.ops opRead ∧ "a" ∉ od.ops opUpdate := by
  refine ⟨by decide, _, _, _, rfl, rfl, rfl, ?_, ?_⟩ <;> decide

/-- C5 (failing input): an open of "a" whose forwarded loopback open fails with
errno 13 still records Read("a") in the caller's session, which held no path
before. -/
theorem C5_failed_open_records :
    (∃ od0, (NewTapFS "/backing").openDataByPGID 1 = some od0 ∧ ∀ X, od0.ops X = ∅) ∧
    ∃ (r1 : TapFSRoot) (reply : OpenReply) (od : openData),
      TapFSNode.Open (fun _ => none) 4 (fun _ => { fh := none, flags := 0, errno := 13 })
        (NewTapFS "/backing") 1 "a" 0 = some (r1, reply) ∧
      reply.errno = 13 ∧
      r1.openDataByPGID 1 = some od ∧
      "a" ∈ od.ops opRead := by
  refine ⟨⟨_, rfl, by decide⟩, _, _, _, rfl, rfl, rfl, ?_⟩
  decide

/-! ## Lemmas about the trace RPC -/

theorem removeRecord_unregistered (r : TapFSRoot) (pgid : Int)
    (h : r.openDataByPGID pgid = none) : r.removeRecord pgid = (r, none) := by
  unfold TapFSRoot.removeRecord
  have hu : Function.update r.openDataByPGID pgid none = r.openDataByPGID := by
    rw [← h]; exact Function.update_eq_self pgid r.openDataByPGID
  simp only [hu, h]

theorem EndTrace_unregistered (range : operation → List String) (s : CommandServer)
    (pgid : Int) (rep : TraceResponse) (h : s.root.openDataByPGID pgid = none) :
    CommandServer.EndTrace range s { PGID := pgid } rep = RPCResult.panicked s := by
  simp only [CommandServer.EndTrace, removeRecord_unregistered s.root pgid h]

theorem EndTrace_debug_nil_log (range : operation → List String) (s : CommandServer)
    (req : TraceRequest) (rep : TraceResponse) (hd : s.Debug = true) (hl : s.debugLog = none) :
    CommandServer.EndTrace range s req rep =
      RPCResult.panicked { s with root := (s.root.removeRecord req.PGID).1 } := by
  unfold CommandServer.EndTrace
  cases hreg : s.root.openDataByPGID req.PGID <;>
    simp [TapFSRoot.removeRecord, hreg, hd, hl]

theorem StartTrace_root (osCreate : String → String → Except String Nat) (s : CommandServer)
    (req : TraceRequest) (rep : TraceResponse) :
    (CommandServer.StartTrace osCreate s req rep).state.root =
      (s.root.registerPGID req.PGID).1 := by
  unfold CommandServer.StartTrace
  cases hD : s.Debug with
  | false => rfl
  | true =>
    simp only [if_true]
    cases osCreate s.depDir ((s.root.registerPGID req.PGID).2.id ++ ".log") <;> rfl

theorem EndTrace_root (range : operation → List String) (s : CommandServer)
    (req : TraceRequest) (rep : TraceResponse) :
    (CommandServer.EndTrace range s req rep).state.root = (s.root.removeRecord req.PGID).1 := by
  unfold CommandServer.EndTrace
  cases hreg : s.root.openDataByPGID req.PGID with
  | none => simp [TapFSRoot.removeRecord, hreg, RPCResult.state]
  | some od =>
    cases hD : s.Debug <;> cases hL : s.debugLog <;>
      simp [TapFSRoot.removeRecord, hreg, hD, hL, RPCResult.state]

theorem sortStrings_sorted (keys : List String) (m : Finset String) (h : IsRange keys m) :
    List.Sorted (· < ·) (sortStrings keys) ∧ ∀ p, p ∈ sortStrings keys ↔ p ∈ m := by
  have hperm : (sortStrings keys).Perm keys := List.perm_insertionSort _ keys
  refine ⟨?_, fun p => (hperm.mem_iff).trans (by rw [← h.2, List.mem_toFinset])⟩
  exact (List.sorted_insertionSort (· ≤ ·) keys).lt_of_le (hperm.nodup_iff.mpr h.1)

theorem EndTrace_canonical (range : operation → List String) (s : CommandServer)
    (pgid : Int) (od : openData) (hreg : s.root.openDataByPGID pgid = some od)
    (hrange : ∀ X, IsRange (range X) (od.ops X))
    (hlog : s.Debug = true → s.debugLog ≠ none) :
    ∃ (s1 : CommandServer) (rep : TraceResponse),
      CommandServer.EndTrace range s { PGID := pgid } {} = RPCResult.returned s1 rep none ∧
      rep.ID = od.id ∧ rep.DepDir = s.depDir ∧
      (∀ X, List.Sorted (· < ·) (rep.ops X) ∧ ∀ p, p ∈ rep.ops X ↔ p ∈ od.ops X) ∧
      s1.root.openDataByPGID pgid = none := by
  have hcanon : ∀ X, List.Sorted (· < ·) (sortStrings ([] ++ range X)) ∧
      ∀ p, p ∈ sortStrings ([] ++ range X) ↔ p ∈ od.ops X := by
    intro X
    rw [List.nil_append]
    exact sortStrings_sorted _ _ (hrange X)
  unfold CommandServer.EndTrace
  cases hD : s.Debug with
  | false =>
    refine ⟨_, _, by simp [TapFSRoot.removeRecord, hreg, hD]; exact ⟨rfl, rfl⟩, rfl, rfl,
      ?_, by simp [TapFSRoot.removeRecord]⟩
    intro X
    cases X <;> exact hcanon _
  | true =>
    cases hL : s.debugLog with
    | none => exact absurd hL (hlog hD)
    | some f =>
      refine ⟨_, _, by simp [TapFSRoot.removeRecord, hreg, hD, hL]; exact ⟨rfl, rfl⟩, rfl, rfl,
        ?_, by simp [TapFSRoot.removeRecord]⟩
      intro X
      cases X <;> exact hcanon _

/-! ## Claims about the trace RPC -/

/-- C8 (failing input): PGID 42 has no entry in the registry that NewTapFS builds;
removeRecord(42) returns nil and no error, and EndTrace for PGID 42 panics on
`od.id` instead of returning an error; the server state is left as it was. -/
theorem C8_EndTrace_unknown_pgid_panics :
    (NewTapFS "/backing").openDataByPGID 42 = none ∧
    (TapFSRoot.removeRecord (NewTapFS "/backing") 42).2 = none ∧
    CommandServer.EndTrace (fun _ => [])
      { root := NewTapFS "/backing", depDir := "/deps", Debug := false, debugLog := none }
      { PGID := 42 } {} =
    RPCResult.panicked
      { root := NewTapFS "/backing", depDir := "/deps", Debug := false, debugLog := none } :=
  ⟨rfl, rfl, EndTrace_unregistered _ _ 42 _ rfl⟩

/-- C6 (failing input): on a server in debug mode two traces overlap: StartTrace
for 100, StartTrace for 200, EndTrace for 100 (which returns and leaves
`debugLog` nil), then EndTrace for 200. PGID 200 is registered at that point,
and EndTrace panics on `s.debugLog.Close()` instead of returning the arrays. -/
theorem C6_EndTrace_debug_overlap_panics :
    ∃ (s1 s2 s3 s4 : CommandServer) (rep : TraceResponse),
      CommandServer.StartTrace (fun _ _ => .ok 7)
        { root := NewTapFS "/backing", depDir := "/deps", Debug := true, debugLog := none }
        { PGID := 100 } {} = RPCResult.returned s1 {} none ∧
      CommandServer.StartTrace (fun _ _ => .ok 7) s1 { PGID := 200 } {} =
        RPCResult.returned s2 {} none ∧
      CommandServer.EndTrace (fun _ => []) s2 { PGID := 100 } {} =
        RPCResult.returned s3 rep none ∧
      s3.root.openDataByPGID 200 ≠ none ∧
      CommandServer.EndTrace (fun _ => []) s3 { PGID := 200 } {} = RPCResult.panicked s4 := by
  refine ⟨_, _, _, _, _, rfl, rfl, rfl, ?_, rfl⟩
  simp [TapFSRoot.removeRecord, TapFSRoot.registerPGID, NewTapFS, Function.update]

end tapfs
